import Mathlib

/-! Put of the Stash commit-status resource

A shallow embedding of `src/resource/resource.go`.  Go strings and byte slices are
Lean strings; Go's `error` is `Option String` (`none` is `nil`, `some m` is an error
whose text is `m`); Go's `int` and `int64` are `Int` (the only arithmetic is the
decrement of a positive counter, which cannot overflow).  Everything `Put` does to
the outside world (diagnostics, client calls, sleeps, the fatal exit, the output
document) is recorded, in order, as a list of events.
-/

namespace Resource

/-! ## Data model (resource.go, lines 13-48) -/

/-- Connection settings of a request: `type Source`. -/
structure Source where
  Host : String
  Username : String
  Password : String
  RetryAttempts : Int
  SkipSSLVerification : Bool
deriving DecidableEq

/-- The version of a resource: `type Version`. -/
structure Version where
  Ref : String
deriving DecidableEq

/-- Parameters of a put step: `type Params`. -/
structure Params where
  Repository : String
  Commit : String
  State : String
  Description : String
deriving DecidableEq

/-- One name and value pair: `type MetadataItem`. -/
structure MetadataItem where
  Name : String
  Value : String
deriving DecidableEq

/-- Ordered metadata: `type Metadata []MetadataItem`. -/
abbrev Metadata := List MetadataItem

/-- The document written to standard output: `type Response`. -/
structure Response where
  Version : Version
  Metadata : Metadata
deriving DecidableEq

/-- The document read from standard input: `type Request`. -/
structure Request where
  Source : Source
  Version : Version
  Params : Params
deriving DecidableEq

/-- Modelled from the spec: the declaration of `Status` lives in the client file, which
is not among the sources.  The fields are the ones `Put` writes (lines 83-89) and reads
(lines 110-116); `DateAdded` is passed to `strconv.FormatInt`, hence an `int64`. -/
structure Status where
  State : String
  Key : String
  Name : String
  Description : String
  URL : String
  DateAdded : Int
deriving DecidableEq

/-- Modelled from the spec: what one `SetBuildStatus` call does.  `err` is the value the
Go method returns.  `updated` is the build status as the remote response leaves it on
the side of the client, which received the status by value. -/
structure CallResult where
  err : Option String
  updated : Status
deriving DecidableEq

/-- Modelled from the spec: a Stash client, the value `NewStashClient` returns.  The
client takes the number of calls made on it before, the commit and the status, so that
successive calls with the same arguments may end differently. -/
abbrev StashClient := Nat → String → Status → CallResult

/-- What the inspection command gives back: `cmd.CombinedOutput()`. -/
structure CmdResult where
  out : String
  err : Option String
deriving DecidableEq

/-- Everything outside of `Put`: the command line, the process environment, the
`git rev-parse --short=40 HEAD` command run in a directory, and the client constructor. -/
structure World where
  Args : List String
  Environ : String → Option String
  CombinedOutput : String → CmdResult
  NewStashClient : String → String → String → Bool → StashClient

/-- An operand of a diagnostic line. -/
inductive Value where
  | str (s : String)
  | int (i : Int)
  | status (s : Status)
deriving DecidableEq

/-- An observable action of `Put`, in program order: a call of `Log`, a call of
`SetBuildStatus` on the client, a call of `time.Sleep`, a call of `Error` (which ends the
process), a call of `Output`. -/
inductive Event where
  | log (format : String) (values : List Value)
  | setBuildStatus (commit : String) (status : Status)
  | sleep (nanoseconds : Nat)
  | error (format : String) (values : List Value)
  | output (v : Response)
deriving DecidableEq

/-- How a run of `Put` ends: it returns an error value, the process exits (`os.Exit`
inside `Error`), or the runtime panics (`os.Args[1]` out of range). -/
inductive Outcome where
  | returned (err : Option String)
  | exited (code : Nat)
  | panicked
deriving DecidableEq

/-- A run of `Put`: its events and how it ended. -/
structure Run where
  events : List Event
  outcome : Outcome
deriving DecidableEq

/-! ## Library functions used by resource.go -/

/-- The value of `os.Getenv`: the empty string when the variable is unset. -/
def Getenv (w : World) (key : String) : String :=
  (w.Environ key).getD ""

/-- Expansion of a format over string operands, character by character: each `%s`
takes the next operand; a `%s` without operand prints as Go does. -/
def sprintfAux : List Char → List String → List Char
  | '%' :: 's' :: rest, a :: args => a.data ++ sprintfAux rest args
  | '%' :: 's' :: rest, [] => "%!s(MISSING)".data ++ sprintfAux rest []
  | c :: rest, args => c :: sprintfAux rest args
  | [], _ => []

/-- The value of `fmt.Sprintf` for the formats of resource.go, whose only verb is `%s` and
whose operands are strings (one per verb). -/
def Sprintf (format : String) (args : List String) : String :=
  ⟨sprintfAux format.data args⟩

/-- The value of `strconv.FormatInt(i, 10)`. -/
def FormatInt (i : Int) : String :=
  toString i

/-- Go's `bytes.HasSuffix`. -/
def HasSuffix (s suffix : String) : Bool :=
  suffix.data.isSuffixOf s.data

/-- Go's `bytes.TrimSuffix`: `s` without the given trailing suffix, once, when it has it. -/
def TrimSuffix (s suffix : String) : String :=
  if HasSuffix s suffix then ⟨s.data.take (s.data.length - suffix.data.length)⟩ else s

/-- Go's `time.Second`, a duration in nanoseconds. -/
def Second : Nat := 1000000000

/-! ## resource.go, lines 69-133 -/

/-- The function `getBuildURL` (lines 123-133). -/
def getBuildURL (w : World) : String :=
  let atc := Getenv w "ATC_EXTERNAL_URL"
  let team := if Getenv w "BUILD_TEAM_NAME" ≠ "" then Getenv w "BUILD_TEAM_NAME" else "main"
  let pipeline := Getenv w "BUILD_PIPELINE_NAME"
  let job := Getenv w "BUILD_JOB_NAME"
  let build := Getenv w "BUILD_NAME"
  Sprintf "%s/teams/%s/pipelines/%s/jobs/%s/builds/%s" [atc, team, pipeline, job, build]

/-- The status literal of `Put` (lines 83-89); `DateAdded` is not set and so is zero. -/
def newStatus (w : World) (req : Request) : Status where
  State := req.Params.State
  Key := Getenv w "BUILD_JOB_NAME"
  Name := Sprintf "%s-%s" [Getenv w "BUILD_JOB_NAME", Getenv w "BUILD_ID"]
  Description := req.Params.Description
  URL := getBuildURL w
  DateAdded := 0

/-- The variables of the retry loop of `Put`, with the number of client calls made and
the events so far. -/
structure LoopState where
  err : Option String
  attempts : Int
  calls : Nat
  events : List Event
deriving DecidableEq

/-- The events of one pass through the body of the retry loop (lines 95-98). -/
def retryBody (commit : String) (status : Status) : List Event :=
  [Event.log "Failed to set build status, retrying...\n" [],
   Event.setBuildStatus commit status,
   Event.sleep Second]

/-- The retry loop of `Put` (lines 94-99), `for err != nil && attempts > 0`, run for at
most `fuel` passes. -/
def retryLoop (client : StashClient) (commit : String) (status : Status) :
    Nat → LoopState → LoopState
  | 0, s => s
  | fuel + 1, s =>
    if s.err ≠ none ∧ s.attempts > 0 then
      retryLoop client commit status fuel
        ⟨(client s.calls commit status).err, s.attempts - 1, s.calls + 1,
          s.events ++ retryBody commit status⟩
    else s

/-- The result document of `Put` (lines 106-118). -/
def newResponse (commit : String) (status : Status) : Response :=
  let version : Version := ⟨commit⟩
  ⟨version,
    [⟨"commit", version.Ref⟩,
     ⟨"date_added", FormatInt status.DateAdded⟩,
     ⟨"description", status.Description⟩,
     ⟨"key", status.Key⟩,
     ⟨"name", status.Name⟩,
     ⟨"state", status.State⟩,
     ⟨"url", status.URL⟩]⟩

/-- The client of a request (lines 70-71). -/
def clientOf (w : World) (req : Request) : StashClient :=
  let src := req.Source
  w.NewStashClient src.Host src.Username src.Password src.SkipSSLVerification

/-- The directory the inspection command runs in (line 74). -/
def cmdDir (base : String) (req : Request) : String :=
  Sprintf "%s/%s" [base, req.Params.Repository]

/-- The state on entry to the retry loop (lines 81-93): two diagnostics, the first
client call, and the attempt counter set from the request. -/
def loopStart (client : StashClient) (commit : String) (status : Status) (req : Request) :
    LoopState :=
  ⟨(client 0 commit status).err, req.Source.RetryAttempts, 1,
    [Event.log "Setting build status for %s\n" [Value.str commit],
     Event.log "Build status %#v\n" [Value.status status],
     Event.setBuildStatus commit status]⟩

/-- The function `Put` (lines 69-121).  The loop gets `attempts` passes of fuel, which it
never uses up (`retryLoop_exit`).  `Output` writes the document: `json.Marshal` does not
fail on a value made of strings only. -/
def Put (w : World) (req : Request) : Run :=
  let client := clientOf w req
  match w.Args[1]? with
  | none => ⟨[], Outcome.panicked⟩
  | some base =>
    let cmd := w.CombinedOutput (cmdDir base req)
    match cmd.err with
    | some e => ⟨[], Outcome.returned (some e)⟩
    | none =>
      let commit := TrimSuffix cmd.out "\n"
      let status := newStatus w req
      let s0 := loopStart client commit status req
      let s := retryLoop client commit status s0.attempts.toNat s0
      match s.err with
      | some e =>
        ⟨s.events ++ [Event.error "Failed to set the build status after %d attempts %s"
            [Value.int req.Source.RetryAttempts, Value.str e]],
          Outcome.exited 1⟩
      | none =>
        ⟨s.events ++ [Event.log "Status set successfully\n" [],
            Event.output (newResponse commit status)],
          Outcome.returned none⟩

/-- The number of `SetBuildStatus` calls among the events. -/
def callCount : List Event → Nat
  | [] => 0
  | Event.setBuildStatus _ _ :: es => callCount es + 1
  | _ :: es => callCount es

/-- The events that follow the last `SetBuildStatus` call (all of them when there is no
call). -/
def afterLastCall : List Event → List Event
  | [] => []
  | e :: es =>
    if callCount es = 0 then
      (match e with
       | Event.setBuildStatus _ _ => es
       | _ => e :: es)
    else afterLastCall es

/-- The events of `k` passes through the loop body. -/
def retryEvents (commit : String) (status : Status) : Nat → List Event
  | 0 => []
  | k + 1 => retryBody commit status ++ retryEvents commit status k

/-- The final state of the retry loop of `Put` for a resolved commit. -/
def loopEnd (w : World) (req : Request) (commit : String) : LoopState :=
  retryLoop (clientOf w req) commit (newStatus w req) req.Source.RetryAttempts.toNat
    (loopStart (clientOf w req) commit (newStatus w req) req)

/-! ## Test worlds -/

/-- A client that fails its first `k` calls with `boom` and then succeeds, the remote
side stamping the status with `dateAdded = 1700000000000`. -/
def flakyClient (k : Nat) : StashClient :=
  fun i _ st => ⟨if i < k then some "boom" else none, { st with DateAdded := 1700000000000 }⟩

/-- A world with base directory `/tmp/build`, a Concourse environment without team
name, a checkout whose inspection prints `raw`, and a client failing `k` times. -/
def testWorld (raw : String) (k : Nat) : World where
  Args := ["/opt/resource/out", "/tmp/build"]
  Environ := fun key =>
    if key = "ATC_EXTERNAL_URL" then some "https://ci.example.com"
    else if key = "BUILD_PIPELINE_NAME" then some "p"
    else if key = "BUILD_JOB_NAME" then some "j"
    else if key = "BUILD_NAME" then some "3"
    else if key = "BUILD_ID" then some "42"
    else none
  CombinedOutput := fun _ => ⟨raw, none⟩
  NewStashClient := fun _ _ _ _ => flakyClient k

/-- A request with the given number of retry attempts. -/
def testRequest (n : Int) : Request :=
  ⟨⟨"https://stash.example.com", "ci", "secret", n, false⟩, ⟨""⟩,
    ⟨"repo", "", "successful", "build passed"⟩⟩

/-- The test world with the team name set. -/
def teamWorld (team : String) : World where
  Args := (testWorld "abc\n" 0).Args
  Environ := fun key =>
    if key = "BUILD_TEAM_NAME" then some team else (testWorld "abc\n" 0).Environ key
  CombinedOutput := (testWorld "abc\n" 0).CombinedOutput
  NewStashClient := (testWorld "abc\n" 0).NewStashClient

/-- The test world with a checkout that is not a repository: the inspection fails. -/
def brokenWorld : World where
  Args := (testWorld "" 0).Args
  Environ := (testWorld "" 0).Environ
  CombinedOutput := fun _ =>
    ⟨"fatal: not a git repository (or any of the parent directories): .git\n",
      some "exit status 128"⟩
  NewStashClient := (testWorld "" 0).NewStashClient


/-! ## Facts about the library functions -/

theorem Sprintf_dash (a b : String) : Sprintf "%s-%s" [a, b] = a ++ "-" ++ b := by
  apply String.ext
  simp [Sprintf, sprintfAux]

theorem Sprintf_url (a b c d e : String) :
    Sprintf "%s/teams/%s/pipelines/%s/jobs/%s/builds/%s" [a, b, c, d, e]
      = a ++ "/teams/" ++ b ++ "/pipelines/" ++ c ++ "/jobs/" ++ d ++ "/builds/" ++ e := by
  apply String.ext
  simp [Sprintf, sprintfAux]

theorem HasSuffix_iff (s t : String) : HasSuffix s t = true ↔ t.data <:+ s.data := by
  simp [HasSuffix]

theorem HasSuffix_eq_false (s t : String) :
    HasSuffix s t = false ↔ ¬ t.data <:+ s.data := by
  rw [← HasSuffix_iff]
  simp

/-- Trimming one newline leaves no trailing newline unless there were two. -/
theorem not_HasSuffix_TrimSuffix (raw : String) (h : HasSuffix raw "\n\n" = false) :
    HasSuffix (TrimSuffix raw "\n") "\n" = false := by
  rw [HasSuffix_eq_false] at h ⊢
  by_cases hs : HasSuffix raw "\n" = true
  · obtain ⟨t, ht⟩ := (HasSuffix_iff raw "\n").mp hs
    have htrim : (TrimSuffix raw "\n").data = t := by
      simp only [TrimSuffix, hs, if_true]
      show List.take (raw.data.length - 1) raw.data = t
      rw [← ht]
      simp
    rw [htrim]
    rintro ⟨u, hu⟩
    apply h
    refine ⟨u, ?_⟩
    rw [← ht, ← hu]
    show u ++ ['\n', '\n'] = u ++ ['\n'] ++ ['\n']
    simp
  · have htrim : TrimSuffix raw "\n" = raw := by
      simp only [TrimSuffix, hs]
      simp
    rw [htrim]
    intro hc
    exact hs ((HasSuffix_iff raw "\n").mpr hc)

/-! ## The retry loop -/

theorem retryLoop_stop (client : StashClient) (commit : String) (status : Status)
    (fuel : Nat) (s : LoopState) (h : ¬ (s.err ≠ none ∧ s.attempts > 0)) :
    retryLoop client commit status fuel s = s := by
  cases fuel with
  | zero => rfl
  | succ f => simp only [retryLoop, if_neg h]

/-- The loop leaves by its condition, not by lack of fuel, when it is given
`attempts` passes. -/
theorem retryLoop_exit (client : StashClient) (commit : String) (status : Status) :
    ∀ (fuel : Nat) (s : LoopState), s.attempts.toNat ≤ fuel →
      ¬ ((retryLoop client commit status fuel s).err ≠ none
          ∧ (retryLoop client commit status fuel s).attempts > 0) := by
  intro fuel
  induction fuel with
  | zero =>
    intro s hs
    simp only [retryLoop]
    omega
  | succ f ih =>
    intro s hs
    by_cases hc : s.err ≠ none ∧ s.attempts > 0
    · simp only [retryLoop, if_pos hc]
      apply ih
      show (s.attempts - 1).toNat ≤ f
      omega
    · simp only [retryLoop, if_neg hc]
      exact hc

/-- Whatever the client does, the loop adds whole passes of its body, one client call
each, and nothing else. -/
theorem retryLoop_shape (client : StashClient) (commit : String) (status : Status) :
    ∀ (fuel : Nat) (s : LoopState), ∃ k, k ≤ fuel
      ∧ (retryLoop client commit status fuel s).events
          = s.events ++ retryEvents commit status k
      ∧ (retryLoop client commit status fuel s).calls = s.calls + k := by
  intro fuel
  induction fuel with
  | zero =>
    intro s
    exact ⟨0, le_refl 0, by simp [retryLoop, retryEvents], rfl⟩
  | succ f ih =>
    intro s
    by_cases hc : s.err ≠ none ∧ s.attempts > 0
    · obtain ⟨k, hk, hev, hcalls⟩ := ih
        ⟨(client s.calls commit status).err, s.attempts - 1, s.calls + 1,
          s.events ++ retryBody commit status⟩
      refine ⟨k + 1, Nat.succ_le_succ hk, ?_, ?_⟩
      · simp only [retryLoop, if_pos hc, hev, retryEvents, List.append_assoc]
      · simp only [retryLoop, if_pos hc, hcalls]
        omega
    · exact ⟨0, Nat.zero_le _, by simp [retryLoop, if_neg hc, retryEvents],
        by simp [retryLoop, if_neg hc]⟩

/-- When the calls the loop makes all fail, it makes `m` of them for `attempts = m`. -/
theorem retryLoop_allFail (client : StashClient) (commit : String) (status : Status) :
    ∀ (m : Nat) (s : LoopState), s.attempts = m → s.err ≠ none →
      (∀ j, j < m → (client (s.calls + j) commit status).err ≠ none) →
      (retryLoop client commit status m s).err ≠ none
        ∧ (retryLoop client commit status m s).events
            = s.events ++ retryEvents commit status m := by
  intro m
  induction m with
  | zero =>
    intro s _ herr _
    simp [retryLoop, retryEvents, herr]
  | succ m ih =>
    intro s hatt herr hfail
    have hc : s.err ≠ none ∧ s.attempts > 0 := ⟨herr, by omega⟩
    have h0 : (client s.calls commit status).err ≠ none := by
      simpa using hfail 0 (Nat.succ_pos m)
    obtain ⟨h1, h2⟩ := ih
      ⟨(client s.calls commit status).err, s.attempts - 1, s.calls + 1,
        s.events ++ retryBody commit status⟩
      (by show s.attempts - 1 = (m : Int); omega) h0
      (by
        intro j hj
        have := hfail (j + 1) (Nat.succ_lt_succ hj)
        simpa [Nat.add_assoc, Nat.add_comm 1 j] using this)
    refine ⟨?_, ?_⟩
    · simpa only [retryLoop, if_pos hc] using h1
    · simp only [retryLoop, if_pos hc, h2, retryEvents, List.append_assoc]

/-- When the calls of the loop fail `m` times and then succeed, the loop stops after
`m + 1` passes with no error. -/
theorem retryLoop_lastSucceeds (client : StashClient) (commit : String) (status : Status) :
    ∀ (m : Nat) (s : LoopState), s.attempts = (m : Int) + 1 → s.err ≠ none →
      (∀ j, j < m → (client (s.calls + j) commit status).err ≠ none) →
      (client (s.calls + m) commit status).err = none →
      (retryLoop client commit status (m + 1) s).err = none
        ∧ (retryLoop client commit status (m + 1) s).events
            = s.events ++ retryEvents commit status (m + 1) := by
  intro m
  induction m with
  | zero =>
    intro s hatt herr _ hok
    have hc : s.err ≠ none ∧ s.attempts > 0 := ⟨herr, by omega⟩
    simp only [Nat.add_zero] at hok
    simp [retryLoop, if_pos hc, retryEvents, hok]
  | succ m ih =>
    intro s hatt herr hfail hok
    have hc : s.err ≠ none ∧ s.attempts > 0 := ⟨herr, by omega⟩
    have h0 : (client s.calls commit status).err ≠ none := by
      simpa using hfail 0 (Nat.succ_pos m)
    obtain ⟨h1, h2⟩ := ih
      ⟨(client s.calls commit status).err, s.attempts - 1, s.calls + 1,
        s.events ++ retryBody commit status⟩
      (by show s.attempts - 1 = (m : Int) + 1; push_cast at hatt; omega) h0
      (by
        intro j hj
        have := hfail (j + 1) (Nat.succ_lt_succ hj)
        simpa [Nat.add_assoc, Nat.add_comm 1 j] using this)
      (by simpa [Nat.add_assoc, Nat.add_comm 1 m] using hok)
    refine ⟨?_, ?_⟩
    · rw [retryLoop, if_pos hc]
      exact h1
    · rw [retryLoop, if_pos hc, h2]
      simp only [retryEvents, List.append_assoc]

theorem callCount_append (xs ys : List Event) :
    callCount (xs ++ ys) = callCount xs + callCount ys := by
  induction xs with
  | nil => simp [callCount]
  | cons e es ih =>
    cases e <;> simp [callCount, ih]
    omega

theorem callCount_retryEvents (commit : String) (status : Status) (k : Nat) :
    callCount (retryEvents commit status k) = k := by
  induction k with
  | zero => rfl
  | succ k ih =>
    simp [retryEvents, callCount_append, ih, retryBody, callCount]

theorem output_not_mem_retryEvents (commit : String) (status : Status) (v : Response)
    (k : Nat) : Event.output v ∉ retryEvents commit status k := by
  induction k with
  | zero => simp [retryEvents]
  | succ k ih => simp [retryEvents, retryBody, ih]

theorem call_mem_retryEvents (commit : String) (status : Status) (c : String) (st : Status)
    (k : Nat) (h : Event.setBuildStatus c st ∈ retryEvents commit status k) :
    c = commit ∧ st = status := by
  induction k with
  | zero => simp [retryEvents] at h
  | succ k ih =>
    simp only [retryEvents, retryBody, List.mem_append, List.mem_cons] at h
    rcases h with h | h
    · simpa using h
    · exact ih h


/-! ## Runs of Put -/

theorem Put_resolved (w : World) (req : Request) (base raw : String)
    (hargs : w.Args[1]? = some base)
    (hcmd : w.CombinedOutput (cmdDir base req) = ⟨raw, none⟩) :
    Put w req =
      match (loopEnd w req (TrimSuffix raw "\n")).err with
      | some e =>
        ⟨(loopEnd w req (TrimSuffix raw "\n")).events
            ++ [Event.error "Failed to set the build status after %d attempts %s"
                  [Value.int req.Source.RetryAttempts, Value.str e]],
          Outcome.exited 1⟩
      | none =>
        ⟨(loopEnd w req (TrimSuffix raw "\n")).events
            ++ [Event.log "Status set successfully\n" [],
                Event.output (newResponse (TrimSuffix raw "\n") (newStatus w req))],
          Outcome.returned none⟩ := by
  simp only [Put, hargs, hcmd, loopEnd, loopStart]

theorem loopEnd_events (w : World) (req : Request) (commit : String) :
    ∃ k, (loopEnd w req commit).events
      = (loopStart (clientOf w req) commit (newStatus w req) req).events
          ++ retryEvents commit (newStatus w req) k := by
  obtain ⟨k, _, hev, _⟩ := retryLoop_shape (clientOf w req) commit (newStatus w req)
    req.Source.RetryAttempts.toNat (loopStart (clientOf w req) commit (newStatus w req) req)
  exact ⟨k, hev⟩

/-- A run of `Put` is a panic, an inspection failure, or a resolved commit. -/
theorem Put_cases (w : World) (req : Request) :
    (Put w req).events = []
      ∨ ∃ base raw, w.Args[1]? = some base
          ∧ w.CombinedOutput (cmdDir base req) = ⟨raw, none⟩ := by
  cases hargs : w.Args[1]? with
  | none => left; simp [Put, hargs]
  | some base =>
    cases hcmd : w.CombinedOutput (cmdDir base req) with
    | mk raw err =>
      cases err with
      | some e => left; simp [Put, hargs, hcmd]
      | none => right; exact ⟨base, raw, rfl, hcmd⟩

/-- The only document `Put` writes is the one built from the resolved commit and the
status it constructed. -/
theorem output_mem_Put (w : World) (req : Request) (v : Response)
    (h : Event.output v ∈ (Put w req).events) :
    ∃ base raw, w.Args[1]? = some base
      ∧ w.CombinedOutput (cmdDir base req) = ⟨raw, none⟩
      ∧ v = newResponse (TrimSuffix raw "\n") (newStatus w req) := by
  rcases Put_cases w req with h0 | ⟨base, raw, hargs, hcmd⟩
  · rw [h0] at h
    simp at h
  · refine ⟨base, raw, hargs, hcmd, ?_⟩
    rw [Put_resolved w req base raw hargs hcmd] at h
    obtain ⟨k, hk⟩ := loopEnd_events w req (TrimSuffix raw "\n")
    have hno := output_not_mem_retryEvents (TrimSuffix raw "\n") (newStatus w req) v k
    cases herr : (loopEnd w req (TrimSuffix raw "\n")).err with
    | some e =>
      simp [herr, hk, loopStart, hno] at h
    | none =>
      simpa [herr, hk, loopStart, hno] using h

/-- Every client call of `Put` has the resolved commit and the constructed status as
arguments. -/
theorem call_mem_Put (w : World) (req : Request) (c : String) (st : Status)
    (h : Event.setBuildStatus c st ∈ (Put w req).events) :
    ∃ base raw, w.Args[1]? = some base
      ∧ w.CombinedOutput (cmdDir base req) = ⟨raw, none⟩
      ∧ c = TrimSuffix raw "\n" ∧ st = newStatus w req := by
  rcases Put_cases w req with h0 | ⟨base, raw, hargs, hcmd⟩
  · rw [h0] at h
    simp at h
  · refine ⟨base, raw, hargs, hcmd, ?_⟩
    rw [Put_resolved w req base raw hargs hcmd] at h
    obtain ⟨k, hk⟩ := loopEnd_events w req (TrimSuffix raw "\n")
    have hin := call_mem_retryEvents (TrimSuffix raw "\n") (newStatus w req) c st k
    cases herr : (loopEnd w req (TrimSuffix raw "\n")).err with
    | some e =>
      simp only [herr, hk, loopStart, List.mem_append, List.mem_cons, List.mem_singleton,
        List.not_mem_nil, or_false, reduceCtorEq, false_or, Event.setBuildStatus.injEq] at h
      rcases h with h | h
      · exact h
      · exact hin h
    | none =>
      simp only [herr, hk, loopStart, List.mem_append, List.mem_cons, List.mem_singleton,
        List.not_mem_nil, or_false, reduceCtorEq, false_or, Event.setBuildStatus.injEq] at h
      rcases h with h | h
      · exact h
      · exact hin h


theorem loopEnd_success (w : World) (req : Request) (commit : String) (n : Nat)
    (hn : req.Source.RetryAttempts = n)
    (hfail : ∀ k, k < n → (clientOf w req k commit (newStatus w req)).err ≠ none)
    (hok : (clientOf w req n commit (newStatus w req)).err = none) :
    (loopEnd w req commit).err = none
      ∧ (loopEnd w req commit).events
          = (loopStart (clientOf w req) commit (newStatus w req) req).events
              ++ retryEvents commit (newStatus w req) n := by
  cases n with
  | zero =>
    have h0 : (loopStart (clientOf w req) commit (newStatus w req) req).err = none := hok
    simp [loopEnd, hn, retryLoop, retryEvents, h0]
  | succ m =>
    have hfuel : req.Source.RetryAttempts.toNat = m + 1 := by omega
    have h := retryLoop_lastSucceeds (clientOf w req) commit (newStatus w req) m
      (loopStart (clientOf w req) commit (newStatus w req) req)
      (by show req.Source.RetryAttempts = (m : Int) + 1; omega)
      (hfail 0 (Nat.succ_pos m))
      (by
        intro j hj
        have := hfail (j + 1) (Nat.succ_lt_succ hj)
        simpa [loopStart, Nat.add_comm 1 j] using this)
      (by simpa [loopStart, Nat.add_comm 1 m] using hok)
    simpa [loopEnd, hfuel] using h

theorem loopEnd_allFail (w : World) (req : Request) (commit : String) (n : Nat)
    (hn : req.Source.RetryAttempts = n)
    (hfail : ∀ k, k ≤ n → (clientOf w req k commit (newStatus w req)).err ≠ none) :
    (loopEnd w req commit).err ≠ none
      ∧ (loopEnd w req commit).events
          = (loopStart (clientOf w req) commit (newStatus w req) req).events
              ++ retryEvents commit (newStatus w req) n := by
  have hfuel : req.Source.RetryAttempts.toNat = n := by omega
  have h := retryLoop_allFail (clientOf w req) commit (newStatus w req) n
    (loopStart (clientOf w req) commit (newStatus w req) req)
    hn
    (hfail 0 (Nat.zero_le n))
    (by
      intro j hj
      have := hfail (j + 1) hj
      simpa [loopStart, Nat.add_comm 1 j] using this)
  simpa [loopEnd, hfuel] using h

theorem callCount_loopStart (client : StashClient) (commit : String) (status : Status)
    (req : Request) : callCount (loopStart client commit status req).events = 1 := by
  simp [loopStart, callCount]

/-- The retry loop of `Put` ends because its condition fails: the fuel it is given is
never what stops it. -/
theorem loopEnd_exit (w : World) (req : Request) (commit : String) :
    ¬ ((loopEnd w req commit).err ≠ none ∧ (loopEnd w req commit).attempts > 0) :=
  retryLoop_exit (clientOf w req) commit (newStatus w req) req.Source.RetryAttempts.toNat
    (loopStart (clientOf w req) commit (newStatus w req) req) (le_refl _)

theorem retryEvents_succ (commit : String) (status : Status) (k : Nat) :
    retryEvents commit status (k + 1)
      = retryEvents commit status k ++ retryBody commit status := by
  induction k with
  | zero => simp [retryEvents]
  | succ k ih =>
    show retryBody commit status ++ retryEvents commit status (k + 1)
      = (retryBody commit status ++ retryEvents commit status k) ++ retryBody commit status
    rw [ih, List.append_assoc]

/-- With at least one retry, a run that succeeds on its last allowed attempt ends with
that call, the sleep of the loop body, the success diagnostic and the document. -/
theorem Put_success_tail (w : World) (req : Request) (m : Nat) (base raw : String)
    (hn : req.Source.RetryAttempts = (m : Int) + 1)
    (hargs : w.Args[1]? = some base)
    (hcmd : w.CombinedOutput (cmdDir base req) = ⟨raw, none⟩)
    (hfail : ∀ k, k < m + 1 →
      (clientOf w req k (TrimSuffix raw "\n") (newStatus w req)).err ≠ none)
    (hok : (clientOf w req (m + 1) (TrimSuffix raw "\n") (newStatus w req)).err = none) :
    ∃ before, (Put w req).events
      = before ++ [Event.setBuildStatus (TrimSuffix raw "\n") (newStatus w req),
          Event.sleep Second,
          Event.log "Status set successfully\n" [],
          Event.output (newResponse (TrimSuffix raw "\n") (newStatus w req))] := by
  obtain ⟨herr, hev⟩ := loopEnd_success w req (TrimSuffix raw "\n") (m + 1)
    (by rw [hn]; push_cast; rfl) hfail hok
  rw [Put_resolved w req base raw hargs hcmd]
  refine ⟨(loopStart (clientOf w req) (TrimSuffix raw "\n") (newStatus w req) req).events
      ++ retryEvents (TrimSuffix raw "\n") (newStatus w req) m
      ++ [Event.log "Failed to set build status, retrying...\n" []], ?_⟩
  simp [herr, hev, retryEvents_succ, retryBody]

/-- When every attempt fails, the last event is the fatal message, whose count operand
is the configured number of retries while `n + 1` calls were made. -/
theorem Put_fatal_operands (w : World) (req : Request) (n : Nat) (base raw : String)
    (hn : req.Source.RetryAttempts = n)
    (hargs : w.Args[1]? = some base)
    (hcmd : w.CombinedOutput (cmdDir base req) = ⟨raw, none⟩)
    (hfail : ∀ k, k ≤ n →
      (clientOf w req k (TrimSuffix raw "\n") (newStatus w req)).err ≠ none) :
    ∃ e, (Put w req).events.getLast?
        = some (Event.error "Failed to set the build status after %d attempts %s"
            [Value.int n, Value.str e]) := by
  obtain ⟨herr, _⟩ := loopEnd_allFail w req (TrimSuffix raw "\n") n hn hfail
  obtain ⟨e, he⟩ := Option.ne_none_iff_exists'.mp herr
  refine ⟨e, ?_⟩
  rw [Put_resolved w req base raw hargs hcmd]
  simp [he, hn]

/-! ## The claims -/

/-- C1: for every retry budget `n` and every resolved commit, when `SetBuildStatus` fails
on attempts `1..n` and succeeds on attempt `n + 1`, `Put` returns without error, the
result document is written, and exactly `n + 1` calls are made. -/
theorem Put_succeeds_after_failures (w : World) (req : Request) (n : Nat)
    (base raw : String)
    (hn : req.Source.RetryAttempts = n)
    (hargs : w.Args[1]? = some base)
    (hcmd : w.CombinedOutput (cmdDir base req) = ⟨raw, none⟩)
    (hfail : ∀ k, k < n →
      (clientOf w req k (TrimSuffix raw "\n") (newStatus w req)).err ≠ none)
    (hok : (clientOf w req n (TrimSuffix raw "\n") (newStatus w req)).err = none) :
    (Put w req).outcome = Outcome.returned none
      ∧ Event.output (newResponse (TrimSuffix raw "\n") (newStatus w req))
          ∈ (Put w req).events
      ∧ callCount (Put w req).events = n + 1 := by
  obtain ⟨herr, hev⟩ := loopEnd_success w req (TrimSuffix raw "\n") n hn hfail hok
  rw [Put_resolved w req base raw hargs hcmd]
  refine ⟨?_, ?_, ?_⟩
  · simp only [herr]
  · simp [herr]
  · simp [herr, hev, callCount_append, callCount_loopStart, callCount_retryEvents, callCount]
    omega

/-- C1, at a concrete input: two retries allowed, the client fails twice and then
succeeds. -/
theorem Put_succeeds_after_failures_witness :
    (Put (testWorld "abc\n" 2) (testRequest 2)).outcome = Outcome.returned none
      ∧ Event.output (newResponse (TrimSuffix "abc\n" "\n")
            (newStatus (testWorld "abc\n" 2) (testRequest 2)))
          ∈ (Put (testWorld "abc\n" 2) (testRequest 2)).events
      ∧ callCount (Put (testWorld "abc\n" 2) (testRequest 2)).events = 2 + 1 :=
  Put_succeeds_after_failures (testWorld "abc\n" 2) (testRequest 2) 2 "/tmp/build" "abc\n"
    rfl rfl rfl (by decide) (by decide)

/-- C2: for every retry budget `n`, when `SetBuildStatus` fails on all `n + 1` attempts,
`Put` ends in the fatal exit, exactly `n + 1` calls are made (one call for `n = 0`), and
no result document is written. -/
theorem Put_fatal_when_all_fail (w : World) (req : Request) (n : Nat)
    (base raw : String)
    (hn : req.Source.RetryAttempts = n)
    (hargs : w.Args[1]? = some base)
    (hcmd : w.CombinedOutput (cmdDir base req) = ⟨raw, none⟩)
    (hfail : ∀ k, k ≤ n →
      (clientOf w req k (TrimSuffix raw "\n") (newStatus w req)).err ≠ none) :
    (Put w req).outcome = Outcome.exited 1
      ∧ callCount (Put w req).events = n + 1
      ∧ (n = 0 → callCount (Put w req).events = 1)
      ∧ ∀ v, Event.output v ∉ (Put w req).events := by
  obtain ⟨herr, hev⟩ := loopEnd_allFail w req (TrimSuffix raw "\n") n hn hfail
  obtain ⟨e, he⟩ := Option.ne_none_iff_exists'.mp herr
  have hcount : callCount (Put w req).events = n + 1 := by
    rw [Put_resolved w req base raw hargs hcmd]
    simp [he, hev, callCount_append, callCount_loopStart, callCount_retryEvents, callCount]
    omega
  refine ⟨?_, hcount, ?_, ?_⟩
  · rw [Put_resolved w req base raw hargs hcmd]
    simp only [he]
  · intro h0
    rw [hcount, h0]
  · intro v hv
    rw [Put_resolved w req base raw hargs hcmd] at hv
    have hno := output_not_mem_retryEvents (TrimSuffix raw "\n") (newStatus w req) v n
    simp [he, hev, loopStart, hno] at hv

/-- C2, at a concrete input: no retry allowed and a client that fails. -/
theorem Put_fatal_when_all_fail_witness :
    (Put (testWorld "abc\n" 1) (testRequest 0)).outcome = Outcome.exited 1
      ∧ callCount (Put (testWorld "abc\n" 1) (testRequest 0)).events = 0 + 1
      ∧ (0 = 0 → callCount (Put (testWorld "abc\n" 1) (testRequest 0)).events = 1)
      ∧ ∀ v, Event.output v ∉ (Put (testWorld "abc\n" 1) (testRequest 0)).events :=
  Put_fatal_when_all_fail (testWorld "abc\n" 1) (testRequest 0) 0 "/tmp/build" "abc\n"
    rfl rfl rfl (by decide)

/-- C3: whenever `Put` writes a result document, its metadata has exactly seven entries,
named commit, date_added, description, key, name, state, url in this order, whatever the
values are. -/
theorem Put_metadata_names (w : World) (req : Request) (v : Response)
    (h : Event.output v ∈ (Put w req).events) :
    v.Metadata.length = 7
      ∧ v.Metadata.map MetadataItem.Name
          = ["commit", "date_added", "description", "key", "name", "state", "url"] := by
  obtain ⟨base, raw, _, _, hv⟩ := output_mem_Put w req v h
  subst hv
  exact ⟨rfl, rfl⟩

/-- C3, at a concrete input: the client succeeds at once. -/
theorem Put_metadata_names_witness :
    (newResponse "abc" (newStatus (testWorld "abc\n" 0) (testRequest 0))).Metadata.length = 7
      ∧ (newResponse "abc"
            (newStatus (testWorld "abc\n" 0) (testRequest 0))).Metadata.map MetadataItem.Name
          = ["commit", "date_added", "description", "key", "name", "state", "url"] :=
  Put_metadata_names (testWorld "abc\n" 0) (testRequest 0)
    (newResponse "abc" (newStatus (testWorld "abc\n" 0) (testRequest 0))) (by decide)


/-- C4: `getBuildURL` is the external URL followed by `/teams/`, the team, `/pipelines/`,
the pipeline, `/jobs/`, the job, `/builds/` and the build, where the team is `main` when
`BUILD_TEAM_NAME` is unset or empty and its value otherwise; without team name the
example environment gives `https://ci.example.com/teams/main/pipelines/p/jobs/j/builds/3`
and with team `acme` it gives `.../teams/acme/...`. -/
theorem getBuildURL_format (w : World) :
    getBuildURL w
        = Getenv w "ATC_EXTERNAL_URL" ++ "/teams/"
            ++ (match w.Environ "BUILD_TEAM_NAME" with
                | none => "main"
                | some t => if t = "" then "main" else t)
            ++ "/pipelines/" ++ Getenv w "BUILD_PIPELINE_NAME"
            ++ "/jobs/" ++ Getenv w "BUILD_JOB_NAME"
            ++ "/builds/" ++ Getenv w "BUILD_NAME"
      ∧ getBuildURL (testWorld "abc\n" 0)
          = "https://ci.example.com/teams/main/pipelines/p/jobs/j/builds/3"
      ∧ getBuildURL (teamWorld "acme")
          = "https://ci.example.com/teams/acme/pipelines/p/jobs/j/builds/3" := by
  refine ⟨?_, by decide, by decide⟩
  rw [getBuildURL, Sprintf_url]
  cases h : w.Environ "BUILD_TEAM_NAME" with
  | none => simp [Getenv, h]
  | some t =>
    by_cases ht : t = ""
    · simp [Getenv, h, ht]
    · simp [Getenv, h, ht]

/-- C5: at the failing input (one retry allowed, the client fails once and then
succeeds) `Put` makes two calls and succeeds, and a sleep of one second follows the
final, successful call; there is no sleep between the two calls. -/
theorem Put_sleeps_after_final_call :
    Put (testWorld "abc\n" 1) (testRequest 1)
        = ⟨[Event.log "Setting build status for %s\n" [Value.str "abc"],
            Event.log "Build status %#v\n"
              [Value.status (newStatus (testWorld "abc\n" 1) (testRequest 1))],
            Event.setBuildStatus "abc" (newStatus (testWorld "abc\n" 1) (testRequest 1)),
            Event.log "Failed to set build status, retrying...\n" [],
            Event.setBuildStatus "abc" (newStatus (testWorld "abc\n" 1) (testRequest 1)),
            Event.sleep Second,
            Event.log "Status set successfully\n" [],
            Event.output
              (newResponse "abc" (newStatus (testWorld "abc\n" 1) (testRequest 1)))],
          Outcome.returned none⟩
      ∧ Event.sleep Second
          ∈ afterLastCall (Put (testWorld "abc\n" 1) (testRequest 1)).events := by
  decide

/-- C6: at the failing input (two retries allowed, the client fails every time) `Put`
makes three calls, and the fatal message is given the count 2, the configured number of
retries, together with the last error. -/
theorem Put_fatal_message_count :
    callCount (Put (testWorld "abc\n" 3) (testRequest 2)).events = 3
      ∧ (Put (testWorld "abc\n" 3) (testRequest 2)).events.getLast?
          = some (Event.error "Failed to set the build status after %d attempts %s"
              [Value.int 2, Value.str "boom"])
      ∧ (Put (testWorld "abc\n" 3) (testRequest 2)).outcome = Outcome.exited 1 := by
  decide

/-- C7, refuted as stated: when the inspection prints `abc` followed by two newlines,
the commit `Put` passes to the client and writes as `version.ref` and as the commit
metadata value is `abc` followed by a newline. -/
theorem Put_commit_keeps_second_newline :
    Event.setBuildStatus "abc\n" (newStatus (testWorld "abc\n\n" 0) (testRequest 0))
        ∈ (Put (testWorld "abc\n\n" 0) (testRequest 0)).events
      ∧ Event.output ⟨⟨"abc\n"⟩,
          [⟨"commit", "abc\n"⟩, ⟨"date_added", "0"⟩, ⟨"description", "build passed"⟩,
           ⟨"key", "j"⟩, ⟨"name", "j-42"⟩, ⟨"state", "successful"⟩,
           ⟨"url", "https://ci.example.com/teams/main/pipelines/p/jobs/j/builds/3"⟩]⟩
        ∈ (Put (testWorld "abc\n\n" 0) (testRequest 0)).events
      ∧ HasSuffix "abc\n" "\n" = true := by
  decide

/-- C7, amended: when the raw output of the inspection command does not end with two
newline characters, the commit `Put` uses as the `SetBuildStatus` argument, as
`version.ref` and as the commit metadata value does not end with a newline. -/
theorem Put_commit_no_trailing_newline (w : World) (req : Request)
    (hraw : ∀ base, w.Args[1]? = some base →
      HasSuffix (w.CombinedOutput (cmdDir base req)).out "\n\n" = false) :
    (∀ c st, Event.setBuildStatus c st ∈ (Put w req).events → HasSuffix c "\n" = false)
      ∧ ∀ v, Event.output v ∈ (Put w req).events →
          HasSuffix v.Version.Ref "\n" = false
            ∧ ∃ c, v.Metadata[0]? = some ⟨"commit", c⟩ ∧ HasSuffix c "\n" = false := by
  constructor
  · intro c st h
    obtain ⟨base, raw, hargs, hcmd, hc, _⟩ := call_mem_Put w req c st h
    have := hraw base hargs
    rw [hcmd] at this
    rw [hc]
    exact not_HasSuffix_TrimSuffix raw this
  · intro v h
    obtain ⟨base, raw, hargs, hcmd, hv⟩ := output_mem_Put w req v h
    have := hraw base hargs
    rw [hcmd] at this
    subst hv
    exact ⟨not_HasSuffix_TrimSuffix raw this,
      TrimSuffix raw "\n", rfl, not_HasSuffix_TrimSuffix raw this⟩

/-- C7, amended, at a concrete input: the inspection prints `abc` and one newline. -/
theorem Put_commit_no_trailing_newline_witness :
    (∀ c st, Event.setBuildStatus c st ∈ (Put (testWorld "abc\n" 1) (testRequest 1)).events →
        HasSuffix c "\n" = false)
      ∧ ∀ v, Event.output v ∈ (Put (testWorld "abc\n" 1) (testRequest 1)).events →
          HasSuffix v.Version.Ref "\n" = false
            ∧ ∃ c, v.Metadata[0]? = some ⟨"commit", c⟩ ∧ HasSuffix c "\n" = false :=
  Put_commit_no_trailing_newline (testWorld "abc\n" 1) (testRequest 1)
    (fun _ _ => rfl)

/-- C8, refuted as stated: the client succeeds at the first call and the remote response
stamps the status with `dateAdded = 1700000000000`, yet the result document `Put` writes
has `date_added` equal to `0`. -/
theorem Put_date_added_not_folded_back :
    (clientOf (testWorld "abc\n" 0) (testRequest 0) 0 "abc"
        (newStatus (testWorld "abc\n" 0) (testRequest 0))).err = none
      ∧ (clientOf (testWorld "abc\n" 0) (testRequest 0) 0 "abc"
          (newStatus (testWorld "abc\n" 0) (testRequest 0))).updated.DateAdded = 1700000000000
      ∧ Event.output ⟨⟨"abc"⟩,
          [⟨"commit", "abc"⟩, ⟨"date_added", "0"⟩, ⟨"description", "build passed"⟩,
           ⟨"key", "j"⟩, ⟨"name", "j-42"⟩, ⟨"state", "successful"⟩,
           ⟨"url", "https://ci.example.com/teams/main/pipelines/p/jobs/j/builds/3"⟩]⟩
        ∈ (Put (testWorld "abc\n" 0) (testRequest 0)).events
      ∧ FormatInt 1700000000000 = "1700000000000"
      ∧ "0" ≠ FormatInt 1700000000000 := by
  decide

/-- C8, amended: whatever the client and the remote response do, whenever `Put` writes a
result document its `date_added` is the decimal rendering of the `DateAdded` of the
status `Put` itself constructed, which it never sets: `date_added` is `0`. -/
theorem Put_date_added_zero (w : World) (req : Request) (v : Response)
    (h : Event.output v ∈ (Put w req).events) :
    v.Metadata[1]? = some ⟨"date_added", FormatInt (newStatus w req).DateAdded⟩
      ∧ v.Metadata[1]? = some ⟨"date_added", "0"⟩ := by
  obtain ⟨base, raw, _, _, hv⟩ := output_mem_Put w req v h
  subst hv
  exact ⟨rfl, rfl⟩

/-- C8, amended, at a concrete input: a client whose remote side stamps a date. -/
theorem Put_date_added_zero_witness :
    (newResponse "abc" (newStatus (testWorld "abc\n" 0) (testRequest 3))).Metadata[1]?
        = some ⟨"date_added",
            FormatInt (newStatus (testWorld "abc\n" 0) (testRequest 3)).DateAdded⟩
      ∧ (newResponse "abc" (newStatus (testWorld "abc\n" 0) (testRequest 3))).Metadata[1]?
        = some ⟨"date_added", "0"⟩ :=
  Put_date_added_zero (testWorld "abc\n" 0) (testRequest 3)
    (newResponse "abc" (newStatus (testWorld "abc\n" 0) (testRequest 3))) (by decide)


/-- C9: whenever `Put` writes a result document, `version.ref` and the commit value
equal the resolved commit, the state and description values are those of the request
parameters, the key is `BUILD_JOB_NAME`, the name is `BUILD_JOB_NAME`, a dash and
`BUILD_ID`, the url is `getBuildURL`; and every `SetBuildStatus` call is given the
resolved commit and a status with these same fields. -/
theorem Put_result_fields (w : World) (req : Request) (v : Response)
    (h : Event.output v ∈ (Put w req).events) :
    ∃ base raw, w.Args[1]? = some base
      ∧ w.CombinedOutput (cmdDir base req) = ⟨raw, none⟩
      ∧ v.Version.Ref = TrimSuffix raw "\n"
      ∧ v.Metadata[0]? = some ⟨"commit", TrimSuffix raw "\n"⟩
      ∧ v.Metadata[2]? = some ⟨"description", req.Params.Description⟩
      ∧ v.Metadata[3]? = some ⟨"key", Getenv w "BUILD_JOB_NAME"⟩
      ∧ v.Metadata[4]?
          = some ⟨"name", Getenv w "BUILD_JOB_NAME" ++ "-" ++ Getenv w "BUILD_ID"⟩
      ∧ v.Metadata[5]? = some ⟨"state", req.Params.State⟩
      ∧ v.Metadata[6]? = some ⟨"url", getBuildURL w⟩
      ∧ ∀ c st, Event.setBuildStatus c st ∈ (Put w req).events →
          c = TrimSuffix raw "\n"
            ∧ st.State = req.Params.State
            ∧ st.Description = req.Params.Description
            ∧ st.Key = Getenv w "BUILD_JOB_NAME"
            ∧ st.Name = Getenv w "BUILD_JOB_NAME" ++ "-" ++ Getenv w "BUILD_ID"
            ∧ st.URL = getBuildURL w := by
  obtain ⟨base, raw, hargs, hcmd, hv⟩ := output_mem_Put w req v h
  subst hv
  have hname : (newStatus w req).Name
      = Getenv w "BUILD_JOB_NAME" ++ "-" ++ Getenv w "BUILD_ID" := by
    rw [← Sprintf_dash]
    rfl
  refine ⟨base, raw, hargs, hcmd, rfl, rfl, rfl, rfl, ?_, rfl, rfl, ?_⟩
  · rw [← hname]
    rfl
  · intro c st hc
    obtain ⟨base2, raw2, hargs2, hcmd2, hc2, hst⟩ := call_mem_Put w req c st hc
    rw [hargs] at hargs2
    cases hargs2
    rw [hcmd] at hcmd2
    cases hcmd2
    subst hst
    exact ⟨hc2, rfl, rfl, rfl, hname, rfl⟩

/-- C9, at a concrete input: one failure, then success. -/
theorem Put_result_fields_witness :
    ∃ base raw, (testWorld "abc\n" 1).Args[1]? = some base
      ∧ (testWorld "abc\n" 1).CombinedOutput (cmdDir base (testRequest 2)) = ⟨raw, none⟩
      ∧ (newResponse "abc" (newStatus (testWorld "abc\n" 1) (testRequest 2))).Version.Ref
          = TrimSuffix raw "\n"
      ∧ (newResponse "abc" (newStatus (testWorld "abc\n" 1) (testRequest 2))).Metadata[0]?
          = some ⟨"commit", TrimSuffix raw "\n"⟩
      ∧ (newResponse "abc" (newStatus (testWorld "abc\n" 1) (testRequest 2))).Metadata[2]?
          = some ⟨"description", (testRequest 2).Params.Description⟩
      ∧ (newResponse "abc" (newStatus (testWorld "abc\n" 1) (testRequest 2))).Metadata[3]?
          = some ⟨"key", Getenv (testWorld "abc\n" 1) "BUILD_JOB_NAME"⟩
      ∧ (newResponse "abc" (newStatus (testWorld "abc\n" 1) (testRequest 2))).Metadata[4]?
          = some ⟨"name", Getenv (testWorld "abc\n" 1) "BUILD_JOB_NAME" ++ "-"
              ++ Getenv (testWorld "abc\n" 1) "BUILD_ID"⟩
      ∧ (newResponse "abc" (newStatus (testWorld "abc\n" 1) (testRequest 2))).Metadata[5]?
          = some ⟨"state", (testRequest 2).Params.State⟩
      ∧ (newResponse "abc" (newStatus (testWorld "abc\n" 1) (testRequest 2))).Metadata[6]?
          = some ⟨"url", getBuildURL (testWorld "abc\n" 1)⟩
      ∧ ∀ c st, Event.setBuildStatus c st
            ∈ (Put (testWorld "abc\n" 1) (testRequest 2)).events →
          c = TrimSuffix raw "\n"
            ∧ st.State = (testRequest 2).Params.State
            ∧ st.Description = (testRequest 2).Params.Description
            ∧ st.Key = Getenv (testWorld "abc\n" 1) "BUILD_JOB_NAME"
            ∧ st.Name = Getenv (testWorld "abc\n" 1) "BUILD_JOB_NAME" ++ "-"
                ++ Getenv (testWorld "abc\n" 1) "BUILD_ID"
            ∧ st.URL = getBuildURL (testWorld "abc\n" 1) :=
  Put_result_fields (testWorld "abc\n" 1) (testRequest 2)
    (newResponse "abc" (newStatus (testWorld "abc\n" 1) (testRequest 2))) (by decide)

/-- C10: whatever the request and its retry budget, when the repository inspection
fails `Put` returns that error at once: no event at all, hence no `SetBuildStatus`
call, no sleep and no result document. -/
theorem Put_inspection_failure (w : World) (req : Request) (base e : String)
    (hargs : w.Args[1]? = some base)
    (hcmd : (w.CombinedOutput (cmdDir base req)).err = some e) :
    (Put w req).outcome = Outcome.returned (some e)
      ∧ (Put w req).events = []
      ∧ callCount (Put w req).events = 0
      ∧ (∀ d, Event.sleep d ∉ (Put w req).events)
      ∧ ∀ v, Event.output v ∉ (Put w req).events := by
  have hput : Put w req = ⟨[], Outcome.returned (some e)⟩ := by
    simp only [Put, hargs, hcmd]
  rw [hput]
  simp [callCount]

/-- C10, at a concrete input: the inspection fails although ten retries are allowed. -/
theorem Put_inspection_failure_witness :
    (Put brokenWorld (testRequest 10)).outcome
        = Outcome.returned (some "exit status 128")
      ∧ (Put brokenWorld (testRequest 10)).events = []
      ∧ callCount (Put brokenWorld (testRequest 10)).events = 0
      ∧ (∀ d, Event.sleep d ∉ (Put brokenWorld (testRequest 10)).events)
      ∧ ∀ v, Event.output v ∉ (Put brokenWorld (testRequest 10)).events :=
  Put_inspection_failure brokenWorld (testRequest 10) "/tmp/build" "exit status 128" rfl rfl

end Resource
